import Mathlib

/-!
Verification of the CNTK NDL/MEL scripting core against its specification.

The embedding covers `ModelEditLanguage.cpp` (command dispatch via
`EqualInsensitive`, `MELScript::CallFunction`, `MELScript::SetProperty`) and
`NetworkDescriptionLanguage.h` (`NDLNode::EvaluateMacro`, `NDLNode::GetScalar`,
`NDLScript::AddSymbol`/`AssignSymbol`/`FindSymbol`, `NDLScript::Evaluate`).
C++ strings are modelled as `List Char` or `String`, the case-insensitive
symbol tables as association lists, and exceptions raised through `Error(...)`
as `Except`/explicit error results.  Host-side state that the claims do not
touch (the opaque per-node evaluation handles, file input/output performed by
the Network capability) is noted in comments where it is elided.
-/

namespace CNTK

/-- Lowercase a character sequence; models the case-insensitive comparisons
(`_strnicmp`, the `nocase_compare` map ordering) used throughout the source. -/
def lowerKey (s : List Char) : List Char := s.map Char.toLower

/-- Model of `!_strnicmp(string1.c_str(), string2, string1.size())`: the C
comparison stops at the terminating null of `string2`, so it succeeds exactly
when the lowercased `string1` is a prefix of the lowercased `string2`. -/
def ciStarts (s1 s2 : List Char) : Bool := (lowerKey s1).isPrefixOf (lowerKey s2)

/-- First leg of `EqualInsensitive` (ModelEditLanguage.cpp:18-32): compare
`string1` against `string2` case-insensitively up to `string1`'s length,
reject partial matches shorter than half of `string2`, and on a match replace
`string1` with the full case-sensitive `string2` (the source guards the
assignment with `strcmp`, which only skips the assignment when the strings are
already identical).  Returns the pair (equal, updated string1). -/
def equalInsensitiveOne (string1 string2 : List Char) : Bool × List Char :=
  let equal := ciStarts string1 string2
  -- do not allow partial matches that are less than half the string
  let equal := if equal && decide (string1.length < string2.length / 2) then false else equal
  -- if we have a (partial) match replace with the full name
  let string1 := if equal && decide (string1 ≠ string2) then string2 else string1
  (equal, string1)

/-- `EqualInsensitive` (ModelEditLanguage.cpp:18-52): try `string2`; on failure
try the `alternate` name under the same half-length rule, and on an alternate
match replace `string1` with `string2`, the full main name. -/
def equalInsensitive (string1 string2 : List Char) (alternate : Option (List Char)) :
    Bool × List Char :=
  let r := equalInsensitiveOne string1 string2
  if r.1 then r
  else
    match alternate with
    | some alt =>
      let equal := ciStarts r.2 alt
      -- do not allow partial matches that are less than half the string
      let equal := if equal && decide (r.2.length < alt.length / 2) then false else equal
      -- if we have a match of the alternate string replace with the full name
      let string1 := if equal then string2 else r.2
      (equal, string1)
    | none => r

/-! ## MEL interpreter state

`MELScript` holds a registry `m_mapNameToNetNdl : map<string, NetNdl>` and a
default entry `m_netNdlDefault`.  A computation network is modelled by its
named nodes; a node by its list of input edges (names of the input nodes).
The NDL script attached to a `NetNdl` and the host evaluation handles play no
role in the claims below and are elided. -/

/-- One node of the external computation network: `inputs` are the names of the
nodes its input edges point at (spec section 3, Network capability). -/
structure CompNode where
  inputs : List String
deriving DecidableEq

/-- The external computation network: a name-to-node association. -/
structure ComputationNetwork where
  nodes : List (String × CompNode)
deriving DecidableEq

/-- `new ComputationNetwork<ElemType>(CPUDEVICE)`: a blank network. -/
def emptyNetwork : ComputationNetwork := ⟨[]⟩

/-- The `MELScript` state: the model registry `m_mapNameToNetNdl` and the name
of the default entry (`m_netNdlDefault` points into the registry). -/
structure MELState where
  mapNameToNetNdl : List (String × ComputationNetwork)
  netNdlDefault : Option String
deriving DecidableEq

def lookupAssoc {α : Type} (l : List (String × α)) (k : String) : Option α :=
  match l.find? (fun p => p.1 == k) with
  | some p => some p.2
  | none => none

def setAssoc {α : Type} : List (String × α) → String → α → List (String × α)
  | [], k, v => [(k, v)]
  | p :: rest, k, v => if p.1 == k then (p.1, v) :: rest else p :: setAssoc rest k v

/-- Errors raised through `Error(...)` by the MEL interpreter, keyed by the
information the message carries. -/
inductive MELError where
  | invalidParams (validParams : String)
  | stateError (symbol : String)
  | refScopeError (sym1 sym2 : String)
  | singleInputError (symbol : String)
  | targetError (symbol : String)
  | unknownCommand (name : List Char)
deriving DecidableEq

/-- The outcome of one MEL command.  `err` carries the state at the moment the
exception is thrown (edits made before the throw stay committed, spec section 5);
`external` marks a command whose body performs out-of-scope input/output
(file load/save, dumping) and is not modelled further. -/
inductive MELResult where
  | done (st : MELState)
  | err (st : MELState) (e : MELError)
  | external (command : String) (st : MELState)
deriving DecidableEq

/-- The parameter-count check repeated in each branch of `CallFunction`:
`params.size() > numFixedParams + numOptionalParams || params.size() < numFixedParams`. -/
def arityBad (numFixedParams numOptionalParams : Nat) (params : List String) : Bool :=
  decide (params.length > numFixedParams + numOptionalParams) ||
    decide (params.length < numFixedParams)

/-- Modelled from the spec: `OverrideModelNameAndSetDefaultModel` is declared in
ModelEditLanguage.h, which is not among the available sources.  Per spec
section 4.4 a created or loaded network is registered under the given name and
always becomes the process-wide default model.  The overload taking no name
registers under the name `default`. -/
def overrideModelNameAndSetDefaultModel (st : MELState) (cn : ComputationNetwork)
    (modelName : String) : MELState :=
  ⟨setAssoc st.mapNameToNetNdl modelName cn, some modelName⟩

/-- Modelled from the spec: `FindSymbols` is declared in ModelEditLanguage.h,
which is not among the available sources.  Per spec sections 4.4 and 8 a node
reference is resolved by name against the target network (here: the default
model) and a nonexistent model or node reference raises a StateError naming
the missing symbol.  Returns the model name the nodes belong to together with
the matching node names; wildcard patterns and dotted model prefixes are not
modelled. -/
def findSymbols (st : MELState) (symbol : String) :
    Except MELError (String × List String) :=
  match st.netNdlDefault with
  | none => .error (.stateError symbol)
  | some mname =>
    match lookupAssoc st.mapNameToNetNdl mname with
    | none => .error (.stateError symbol)
    | some cn =>
      match lookupAssoc cn.nodes symbol with
      | some _ => .ok (mname, [symbol])
      | none => .error (.stateError symbol)

/-- Modelled from the spec: `ComputationNode::SetInput(inputNum, nodePtr)` is
declared outside the available sources; per spec sections 4.4 and 6 it rewires
the single input edge `inputNum` of the node to point at the given node. -/
def setInputOnNode (n : CompNode) (inputNum : Nat) (inputName : String) : CompNode :=
  ⟨n.inputs.set inputNum inputName⟩

def updateNetworkNode (cn : ComputationNetwork) (nodeName : String)
    (f : CompNode → CompNode) : ComputationNetwork :=
  ⟨cn.nodes.map (fun p => if p.1 == nodeName then (p.1, f p.2) else p)⟩

def updateModel (st : MELState) (modelName : String)
    (f : ComputationNetwork → ComputationNetwork) : MELState :=
  ⟨st.mapNameToNetNdl.map (fun p => if p.1 == modelName then (p.1, f p.2) else p),
    st.netNdlDefault⟩

/-- The `SetNodeInput` branch of `MELScript::CallFunction`
(ModelEditLanguage.cpp:330-357). -/
def melSetNodeInput (params : List String) (st : MELState) : MELResult :=
  if arityBad 3 0 params then
    .err st (.invalidParams "SetNodeInput(toNode, inputID(0-based), inputNodeName)")
  else
    match findSymbols st (params.getD 0 "") with
    | .error e => .err st e
    | .ok (netNdlTo, nodeTo) =>
      match findSymbols st (params.getD 2 "") with
      | .error e => .err st e
      | .ok (netNdlFrom, nodeFrom) =>
        let inputNum := ((params.getD 1 "").toNat?).getD 0
        if netNdlTo ≠ netNdlFrom then
          .err st (.refScopeError (params.getD 0 "") (params.getD 2 ""))
        else if nodeFrom.length ≠ 1 then
          -- the source message names params[0] here, although the check is
          -- about the nodes found from params[2]
          .err st (.singleInputError (params.getD 0 ""))
        else if nodeTo.length < 1 then
          .err st (.targetError (params.getD 2 ""))
        else
          -- ProcessNDLScript(netNdlFrom, ndlPassResolve) completes pending NDL
          -- evaluation; no NDL script is attached to the networks modelled
          -- here, so it leaves the network unchanged
          .done (nodeTo.foldl (fun acc n =>
            updateModel acc netNdlTo (fun cn =>
              updateNetworkNode cn n
                (fun node => setInputOnNode node inputNum (nodeFrom.getD 0 "")))) st)

/-- The `else if` chain of `MELScript::CallFunction` following the two leading
plain `if` statements (ModelEditLanguage.cpp:116-593).  `EqualInsensitive`
mutates the name only on a match, after which the matched branch runs and no
further check is evaluated; the checks are therefore computed here by threading
each result's name into the next check, exactly as the source does on every
reachable path.  Branches whose bodies only perform out-of-scope input/output
(file load/save, dumping, registry-only bookkeeping) end in `external` after
their parameter-count check. -/
def callFunctionChain (name : List Char) (params : List String) (st : MELState) : MELResult :=
  let r01 := equalInsensitive name (String.toList "CreateModelWithName") none
  let r02 := equalInsensitive r01.2 (String.toList "LoadModel") none
  let r03 := equalInsensitive r02.2 (String.toList "LoadModelWithName") none
  let r04 := equalInsensitive r03.2 (String.toList "LoadNDLSnippet") none
  let r05 := equalInsensitive r04.2 (String.toList "SaveDefaultModel") none
  let r06 := equalInsensitive r05.2 (String.toList "SaveModel") none
  let r07 := equalInsensitive r06.2 (String.toList "SetDefaultModel") none
  let r08 := equalInsensitive r07.2 (String.toList "UnloadModel") none
  let r09 := equalInsensitive r08.2 (String.toList "DumpModel") (some (String.toList "Dump"))
  let r10 := equalInsensitive r09.2 (String.toList "DumpNode") none
  let r11 := equalInsensitive r10.2 (String.toList "CopyNode") (some (String.toList "Copy"))
  let r12 := equalInsensitive r11.2 (String.toList "CopySubTree") none
  let r13 := equalInsensitive r12.2 (String.toList "CopyNodeInputs") (some (String.toList "CopyInputs"))
  let r14 := equalInsensitive r13.2 (String.toList "SetNodeInput") (some (String.toList "SetInput"))
  let r15 := equalInsensitive r14.2 (String.toList "SetNodeInputs") (some (String.toList "SetInputs"))
  let r16 := equalInsensitive r15.2 (String.toList "SetProperty") none
  let r17 := equalInsensitive r16.2 (String.toList "SetPropertyForSubTree") none
  let r18 := equalInsensitive r17.2 (String.toList "RemoveNode") (some (String.toList "Remove"))
  let r19 := equalInsensitive r18.2 (String.toList "DeleteNode") (some (String.toList "Delete"))
  let r20 := equalInsensitive r19.2 (String.toList "Rename") none
  if r01.1 then
    if arityBad 1 0 params then .err st (.invalidParams "CreateModelWithName(modelName)")
    else .done (overrideModelNameAndSetDefaultModel st emptyNetwork (params.getD 0 ""))
  else if r02.1 then
    if arityBad 1 1 params then .err st (.invalidParams "LoadModel(modelFileName, [format=cntk])")
    else .external "LoadModel" st
  else if r03.1 then
    if arityBad 2 1 params then
      .err st (.invalidParams "LoadModelWithName(modelName, modelFileName, [format=cntk])")
    else .external "LoadModelWithName" st
  else if r04.1 then
    if arityBad 2 1 params then .err st (.invalidParams "LoadNDLSnippet(modelName, ndlsnippet)")
    else .external "LoadNDLSnippet" st
  else if r05.1 then
    if arityBad 1 1 params then
      .err st (.invalidParams "SaveDefaultModel(modelFileName, [format=cntk])")
    else .external "SaveDefaultModel" st
  else if r06.1 then
    if arityBad 2 1 params then
      .err st (.invalidParams "SaveModel(modelName, modelFileName, [format=cntk])")
    else .external "SaveModel" st
  else if r07.1 then
    if arityBad 1 0 params then .err st (.invalidParams "SetDefaultModel(modelName)")
    else .external "SetDefaultModel" st
  else if r08.1 then
    .external "UnloadModel" st
  else if r09.1 then
    if arityBad 2 1 params then
      .err st (.invalidParams "DumpNetwork(modelName, fileName, [includeData=false|true])")
    else .external "DumpModel" st
  else if r10.1 then
    if arityBad 2 1 params then
      .err st (.invalidParams "DumpNode(nodeName, fileName, [includeData=false|true])")
    else .external "DumpNode" st
  else if r11.1 then
    if arityBad 2 1 params then
      .err st (.invalidParams "CopyNode(fromNode, toNode, [copy=all|value])")
    else .external "CopyNode" st
  else if r12.1 then
    if arityBad 3 1 params then
      .err st (.invalidParams "CopySubTree(fromNode, toNetwork, toNodeNamePrefix, [copy=all|value])")
    else .external "CopySubTree" st
  else if r13.1 then
    if arityBad 2 0 params then .err st (.invalidParams "CopyNodeInputs(fromNode, toNode)")
    else .external "CopyNodeInputs" st
  else if r14.1 then
    melSetNodeInput params st
  else if r15.1 then
    if decide (params.length > 4) || decide (params.length < 2) then
      .err st (.invalidParams "SetNodeInputs(toNode, inputNodeName1, [inputNodeName2, inputNodeName3])")
    else .external "SetNodeInputs" st
  else if r16.1 then
    if decide (params.length ≠ 3) then
      .err st (.invalidParams "SetProperty(toNode, propertyName, propertyValue)")
    else .external "SetProperty" st
  else if r17.1 then
    if arityBad 3 0 params then
      .err st (.invalidParams "SetPropertyForSubTree(rootNodeName, propertyName, propertyValue)")
    else .external "SetPropertyForSubTree" st
  else if r18.1 || r19.1 then
    .external "RemoveNode" st
  else if r20.1 then
    if arityBad 2 0 params then .err st (.invalidParams "Rename(oldNodeName, newNodeName)")
    else .external "Rename" st
  else
    .err st (.unknownCommand r20.2)

/-- `MELScript::CallFunction` (ModelEditLanguage.cpp:103-594).  The source
checks `CreateModel` with a plain `if` whose body has no `else`, so after the
CreateModel body runs control continues into the `CreateModelWithName` check
with the (already fully spelled) name. -/
def callFunction (pname : String) (params : List String) (st : MELState) : MELResult :=
  let name := pname.toList
  let r := equalInsensitive name (String.toList "CreateModel") none
  if r.1 then
    if arityBad 0 0 params then .err st (.invalidParams "CreateModel()")
    else
      -- create a blank model; it always becomes the new default
      let st2 := overrideModelNameAndSetDefaultModel st emptyNetwork "default"
      -- NOTE: no `else` in the source: fall through into the rest of the chain
      callFunctionChain r.2 params st2
  else callFunctionChain r.2 params st

/-! ## NDL node model and symbol tables

`NDLNode` (NetworkDescriptionLanguage.h:150-374) is modelled by its name, raw
value and type tag; the `id` field models C++ object identity (the pointer),
so distinct ids stand for distinct node objects.  The recursive fields
`m_parameters`/`m_paramMacro` of a macro-call node are passed to
`evaluateMacro` as separate arguments, keeping the node type non-recursive;
the opaque host evaluation handle `m_eval` (cleared by `ClearEvalValues`,
filled from the evaluator's `FindSymbol`) is host-side state that does not
influence symbol binding or the returned node, and is elided. -/

/-- `NDLType` (NetworkDescriptionLanguage.h:32-46). -/
inductive NDLType where
  | ndlTypeNull
  | ndlTypeConstant
  | ndlTypeFunction
  | ndlTypeVariable
  | ndlTypeParameter
  | ndlTypeUndetermined
  | ndlTypeDotParameter
  | ndlTypeOptionalParameter
  | ndlTypeArray
  | ndlTypeMacroCall
  | ndlTypeMacro
deriving DecidableEq

/-- An NDL node: `m_name`, `m_value` and `m_type`; `id` models the C++
object identity. -/
structure NDLNode where
  id : Nat
  name : String
  value : String
  ntype : NDLType
deriving DecidableEq

/-- Case-insensitive string equality: the ordering `nocase_compare` of the
symbol map `m_symbols` makes two keys equal exactly when their lowercased
characters agree. -/
def ciEq (a b : String) : Bool :=
  decide (lowerKey a.toList = lowerKey b.toList)

/-- A symbol table `m_symbols : map<string, NDLNode*, nocase_compare>`. -/
def SymTab : Type := List (String × NDLNode)

instance : DecidableEq SymTab := by
  unfold SymTab
  infer_instance

/-- `NDLScript::FindSymbol` without dot-name traversal
(NetworkDescriptionLanguage.h:524-533): the case-insensitive map lookup. -/
def findSymbolAux : SymTab → String → Option NDLNode
  | [], _ => none
  | p :: rest, s => if ciEq p.1 s then some p.2 else findSymbolAux rest s

/-- `NDLScript::ExistsSymbol` (NetworkDescriptionLanguage.h:563-567): the key
is present (the stored pointer is not inspected). -/
def existsSymbol (tbl : SymTab) (s : String) : Bool :=
  (findSymbolAux tbl s).isSome

/-- `m_symbols[symbol] = node`: update the case-insensitively matching entry
in place, or insert a new one. -/
def tblSet : SymTab → String → NDLNode → SymTab
  | [], sym, node => [(sym, node)]
  | p :: rest, sym, node =>
    if ciEq p.1 sym then (p.1, node) :: rest else p :: tblSet rest sym node

instance {ε α : Type} [DecidableEq ε] [DecidableEq α] : DecidableEq (Except ε α) := by
  intro a b
  cases a <;> cases b <;>
    first
      | (apply isFalse
         intro h
         exact Except.noConfusion h)
      | (rename_i x y
         by_cases h : x = y
         · exact isTrue (by rw [h])
         · exact isFalse (by
             intro hxy
             injection hxy with he
             exact h he))

/-- Errors raised through `Error(...)` by the NDL engine, keyed by the
information the message carries. -/
inductive NDLError where
  | arityError (provided expected : Nat) (macroName : String)
  | optionalAsRequired (index : Nat)
  | symbolReassign (symbol value : String)
  | assignMissing (symbol value : String)
  | nullNodeAssigned (symbol : String)
deriving DecidableEq

/-- `NDLScript::AddSymbol` (NetworkDescriptionLanguage.h:588-606): an existing
binding whose node is not an `ndlTypeUndetermined` placeholder raises; an
Undetermined placeholder is silently rebound; an absent symbol is inserted. -/
def addSymbol (tbl : SymTab) (symbol : String) (node : NDLNode) : Except NDLError SymTab :=
  match findSymbolAux tbl symbol with
  | some nodeFound =>
    -- check for undetermined node, because these nodes are to be defined later
    if nodeFound.ntype ≠ .ndlTypeUndetermined then
      .error (.symbolReassign symbol nodeFound.value)
    else .ok (tblSet tbl symbol node)
  | none => .ok (tblSet tbl symbol node)

/-- `NDLScript::AssignSymbol` (NetworkDescriptionLanguage.h:608-619): assigning
to a symbol that does not exist raises; otherwise the binding is replaced. -/
def assignSymbol (tbl : SymTab) (symbol : String) (node : NDLNode) : Except NDLError SymTab :=
  if existsSymbol tbl symbol then .ok (tblSet tbl symbol node)
  else .error (.assignMissing symbol node.value)

/-- Outcomes of `NDLNode::GetScalar`: the constant's value, the
`Scalar expected` error naming the offending node, or — when the reference
chain resolves to no node at all — the dereference of a null node performed by
the source while building that error message. -/
inductive ScalarResult where
  | ok (value : String)
  | scalarExpected (name : String)
  | nullDeref
deriving DecidableEq

/-- The `while` loop of `GetScalar` (NetworkDescriptionLanguage.h:276-281):
follow Variable/Parameter/DotParameter references through `FindNode`.  The
surrounding symbol-table search (local, then global, with dotted-scope
traversal) is abstracted into `lookup`; `fuel` bounds the loop, which the
source does not (a cyclic chain loops forever there). -/
def getScalarLoop (lookup : String → Option NDLNode) :
    Nat → Option NDLNode → Option NDLNode
  | 0, node => node
  | fuel + 1, node =>
    match node with
    | some n =>
      if n.ntype = .ndlTypeVariable ∨ n.ntype = .ndlTypeParameter ∨
          n.ntype = .ndlTypeDotParameter then
        getScalarLoop lookup fuel (lookup n.value)
      else node
    | none => none

/-- `NDLNode::GetScalar` (NetworkDescriptionLanguage.h:272-288).  After the
loop the source tests `!node || node->GetType() != ndlTypeConstant` and then
reads `node->GetName()` to build the error message — a null-pointer
dereference whenever the loop ended on a missing node. -/
def getScalar (lookup : String → Option NDLNode) (fuel : Nat) (start : NDLNode) :
    ScalarResult :=
  match getScalarLoop lookup fuel (some start) with
  | none => .nullDeref
  | some n =>
    if n.ntype ≠ .ndlTypeConstant then .scalarExpected n.name
    else .ok n.value

/-! ## Multi-pass script evaluation and macro expansion -/

/-- An invocation of the host evaluator capability performed by
`NDLScript::Evaluate` for one statement: macro-call statements are expanded
and then handed to `ProcessOptionalParameters`; any other statement goes to
the evaluator's `Evaluate(node, baseName, pass)`. -/
inductive EvalEvent where
  | expandMacro (node : NDLNode)
  | processOptionalParams (node : NDLNode)
  | hostEvaluate (node : NDLNode)
deriving DecidableEq

/-- The per-statement dispatch in the body of the loop of `NDLScript::Evaluate`
(NetworkDescriptionLanguage.h:1001-1010). -/
def evalStep (node : NDLNode) : List EvalEvent :=
  if node.ntype = .ndlTypeMacroCall then
    [.expandMacro node, .processOptionalParams node]
  else
    [.hostEvaluate node]

/-- The loop of `NDLScript::Evaluate` (NetworkDescriptionLanguage.h:990-1012):
while `skip` is set, statements are passed over until `skipThrough` itself is
met (also skipped); afterwards each statement is dispatched and becomes
`nodeLast`. -/
def evaluateScriptGo :
    List NDLNode → Bool → Option NDLNode → Option NDLNode → List EvalEvent →
      List EvalEvent × Option NDLNode
  | [], _, _, nodeLast, events => (events, nodeLast)
  | node :: rest, skip, skipThrough, nodeLast, events =>
    if skip then
      if some node = skipThrough then
        evaluateScriptGo rest false skipThrough nodeLast events
      else
        evaluateScriptGo rest true skipThrough nodeLast events
    else
      evaluateScriptGo rest false skipThrough (some node) (events ++ evalStep node)

/-- `NDLScript::Evaluate` (NetworkDescriptionLanguage.h:983-1015) over the
statement list `m_script`, returning the evaluator invocations made and the
returned `nodeLast` (initialised to `skipThrough`).  The `baseName` bookkeeping
only affects labels inside host calls and is elided. -/
def evaluateScript (stmts : List NDLNode) (skipThrough : Option NDLNode) :
    List EvalEvent × Option NDLNode :=
  evaluateScriptGo stmts skipThrough.isSome skipThrough skipThrough []

/-- A macro body script: its statement list `m_script` and symbol table
`m_symbols`. -/
structure NDLScriptModel where
  statements : List NDLNode
  symbols : SymTab
deriving DecidableEq

/-- One iteration of the parameter-binding loop of `NDLNode::EvaluateMacro`
(NetworkDescriptionLanguage.h:314-349), handling the actual parameter at
index `i`:
* `paramName` is the i-th formal name, or the actual's own name past the end;
* an actual of type Parameter is first looked up in the calling script's
  symbol table (`m_parent->FindSymbol`); the source presses on with the null
  pointer when that lookup fails and stores it in the table, modelled here as
  the explicit `nullNodeAssigned` outcome;
* an optional (name=value) actual in a required position raises; otherwise it
  is added if the body scope has no such symbol yet, and assigned over the
  existing binding if it does;
* every other actual is assigned to `paramName` via `AssignSymbol`.
The lookup of each bound name in the host evaluator's symbols
(`nodeEval.FindSymbol` / `SetEvalValue`) only fills the elided evaluation
handle and is not modelled. -/
def evalMacroBindStep (parentSyms : SymTab) (paramMacro : List String) (i : Nat)
    (nodeParam : NDLNode) (tbl : SymTab) : Except NDLError SymTab :=
  let paramName := paramMacro.getD i nodeParam.name
  -- if the node is a parameter then look it up in the symbol table
  if nodeParam.ntype = .ndlTypeParameter then
    match findSymbolAux parentSyms nodeParam.name with
    | some found => assignSymbol tbl paramName found
    | none => .error (.nullNodeAssigned paramName)
  else if nodeParam.ntype = .ndlTypeOptionalParameter then
    if i < paramMacro.length then .error (.optionalAsRequired i)
    else if existsSymbol tbl paramName = false then
      -- if no symbol yet, add it
      addSymbol tbl paramName nodeParam
    else
      -- else assign the value below
      assignSymbol tbl paramName nodeParam
  else
    assignSymbol tbl paramName nodeParam

/-- The loop wrapping `evalMacroBindStep` over all actual parameters; a raised
error aborts the remaining iterations (the C++ exception propagates). -/
def evalMacroBindGo (parentSyms : SymTab) (paramMacro : List String) :
    Nat → List NDLNode → SymTab → Except NDLError SymTab
  | _, [], tbl => .ok tbl
  | i, nodeParam :: rest, tbl =>
    match evalMacroBindStep parentSyms paramMacro i nodeParam tbl with
    | .ok tbl2 => evalMacroBindGo parentSyms paramMacro (i + 1) rest tbl2
    | .error e => .error e

/-- `NDLNode::EvaluateMacro` (NetworkDescriptionLanguage.h:297-373) for a node
with `m_paramMacro = paramMacro` and `m_parameters = parameters`,
whose macro body script is `body`.  A non-macro-call node returns NULL; too
few actual parameters raise the parameter-mismatch error; then the actual
parameters are bound into the body's symbol table, the body is evaluated
(returning its last node), and a symbol named like the macro itself — if
present in the body after evaluation — replaces that result.
`ClearEvalValues` and the final `m_eval` write only touch the elided host
evaluation handles. -/
def evaluateMacro (parentSyms : SymTab) (node : NDLNode) (paramMacro : List String)
    (parameters : List NDLNode) (body : NDLScriptModel) :
    Except NDLError (Option NDLNode) :=
  if node.ntype ≠ .ndlTypeMacroCall then .ok none
  else if parameters.length < paramMacro.length then
    .error (.arityError parameters.length paramMacro.length node.value)
  else
    match evalMacroBindGo parentSyms paramMacro 0 parameters body.symbols with
    | .error e => .error e
    | .ok syms =>
      -- now evaluate the contained macro script
      let nodeResult := (evaluateScript body.statements none).2
      -- look for a symbol that is identical to the macro name; if it exists
      -- this is the return value
      let nodeResult :=
        match findSymbolAux syms node.value with
        | some nodeMacroName => some nodeMacroName
        | none => nodeResult
      .ok nodeResult

/-- `MELScript::SetProperty` (ModelEditLanguage.cpp:67-86): linear search for
the node in the role array; `set` appends when absent, `clear` erases the
first occurrence when present.  Nodes are identified by their id (the C++
pointer). -/
def setProperty (nodeProp : Nat) (propArray : List Nat) (set : Bool) : List Nat :=
  if set && !(propArray.contains nodeProp) then propArray ++ [nodeProp]
  else if !set && propArray.contains nodeProp then propArray.erase nodeProp
  else propArray

/-! ## Theorems -/

theorem equalInsensitiveOne_fst (s1 s2 : List Char) :
    (equalInsensitiveOne s1 s2).1 = (ciStarts s1 s2 && !decide (s1.length < s2.length / 2)) := by
  cases hb : ciStarts s1 s2 <;>
    by_cases h2 : s1.length < s2.length / 2 <;>
      simp [equalInsensitiveOne, hb, h2]

theorem equalInsensitiveOne_snd_of_false (s1 s2 : List Char)
    (h : (equalInsensitiveOne s1 s2).1 = false) : (equalInsensitiveOne s1 s2).2 = s1 := by
  unfold equalInsensitiveOne at h ⊢
  simp only at h ⊢
  rw [h]
  simp

theorem equalInsensitive_none_fst (s1 s2 : List Char) :
    (equalInsensitive s1 s2 none).1 = true ↔
      (ciStarts s1 s2 = true ∧ s2.length / 2 ≤ s1.length) := by
  have hfst := equalInsensitiveOne_fst s1 s2
  unfold equalInsensitive
  cases hb : (equalInsensitiveOne s1 s2).1 <;> rw [hb] at hfst <;> simp only [hb] <;>
    cases hc : ciStarts s1 s2 <;> rw [hc] at hfst <;>
      simp only [Bool.false_and, Bool.true_and, Bool.not_eq_true', Bool.not_eq_false',
        decide_eq_true_eq, decide_eq_false_iff_not] at hfst <;>
      simp_all <;> omega

theorem equalInsensitive_some_fst (s1 s2 alt : List Char) :
    (equalInsensitive s1 s2 (some alt)).1 = true ↔
      ((ciStarts s1 s2 = true ∧ s2.length / 2 ≤ s1.length) ∨
       (ciStarts s1 alt = true ∧ alt.length / 2 ≤ s1.length)) := by
  have hfst := equalInsensitiveOne_fst s1 s2
  unfold equalInsensitive
  cases hb : (equalInsensitiveOne s1 s2).1 <;> rw [hb] at hfst <;> simp only [hb]
  · rw [equalInsensitiveOne_snd_of_false s1 s2 hb]
    cases hc : ciStarts s1 s2 <;> rw [hc] at hfst <;>
      simp only [Bool.false_and, Bool.true_and, Bool.not_eq_true', Bool.not_eq_false',
        decide_eq_true_eq, decide_eq_false_iff_not] at hfst <;>
      cases hd : ciStarts s1 alt <;>
        by_cases h2 : s1.length < alt.length / 2 <;>
          simp_all <;> omega
  · cases hc : ciStarts s1 s2 <;> rw [hc] at hfst
    · simp at hfst
    · simp at hfst
      simp [hb, hc]
      omega

theorem lookupAssoc_setAssoc {α : Type} (l : List (String × α)) (k : String) (v : α) :
    lookupAssoc (setAssoc l k v) k = some v := by
  induction l with
  | nil => simp [setAssoc, lookupAssoc, List.find?]
  | cons p rest ih =>
    by_cases h : (p.1 == k) = true
    · simp [setAssoc, h, lookupAssoc, List.find?]
    · simp only [setAssoc, h, Bool.false_eq_true, if_false]
      simpa [lookupAssoc, List.find?, h] using ih

/-- C5 counterexample: at the dispatch site for `DumpModel` the alternate alias
`Dump` is supplied, so the token `Du` — length 2, below half of the 9-character
length of `DumpModel` — nevertheless matches via the alias and is rewritten to
the full name `DumpModel`; a full dispatch of `Du` accordingly reaches the
DumpModel branch (here, its parameter-count error). -/
theorem prefix_rule_du_counterexample :
    (equalInsensitive (String.toList "Du") (String.toList "DumpModel")
        (some (String.toList "Dump"))) = (true, String.toList "DumpModel")
  ∧ (String.toList "Du").length < (String.toList "DumpModel").length / 2
  ∧ callFunction "Du" [] ⟨[], none⟩ =
      .err ⟨[], none⟩
        (.invalidParams "DumpNetwork(modelName, fileName, [includeData=false|true])") :=
  ⟨by decide, by decide, by decide⟩

/-- C5 (amended): a token matches a command name exactly when it is a
case-insensitive prefix of it covering at least half (integer division) of its
length, or — failing that and when an alternate alias is given — when the token
stands in the same relation to the alias, in which case it resolves to the main
name.  `Dump` resolves to `DumpModel`; `Du` does not match `DumpModel` itself
but does resolve to it through the alias `Dump`. -/
theorem dispatch_half_length_rule :
    (∀ s1 s2 : List Char, ((equalInsensitive s1 s2 none).1 = true ↔
        (ciStarts s1 s2 = true ∧ s2.length / 2 ≤ s1.length)))
  ∧ (∀ s1 s2 alt : List Char, ((equalInsensitive s1 s2 (some alt)).1 = true ↔
        ((ciStarts s1 s2 = true ∧ s2.length / 2 ≤ s1.length) ∨
         (ciStarts s1 alt = true ∧ alt.length / 2 ≤ s1.length))))
  ∧ (equalInsensitive (String.toList "Dump") (String.toList "DumpModel")
      (some (String.toList "Dump"))).1 = true
  ∧ (equalInsensitive (String.toList "Du") (String.toList "DumpModel") none).1 = false
  ∧ (equalInsensitive (String.toList "Du") (String.toList "DumpModel")
      (some (String.toList "Dump"))) = (true, String.toList "DumpModel") :=
  ⟨equalInsensitive_none_fst, equalInsensitive_some_fst, by decide, by decide, by decide⟩

/-- C1: `CreateModel()` with zero arguments creates a blank network and makes
it the process-wide default, but the source separates the CreateModel branch
from the CreateModelWithName check by a plain `if` with no `else`
(ModelEditLanguage.cpp:107-124), so control falls into the
CreateModelWithName branch whose parameter-count check then raises.  The
command therefore does not complete without error. -/
theorem createModel_zero_args_behavior :
    ∀ st : MELState,
      callFunction "CreateModel" [] st =
        .err (overrideModelNameAndSetDefaultModel st emptyNetwork "default")
          (.invalidParams "CreateModelWithName(modelName)") ∧
      (overrideModelNameAndSetDefaultModel st emptyNetwork "default").netNdlDefault
          = some "default" ∧
      lookupAssoc
          (overrideModelNameAndSetDefaultModel st emptyNetwork "default").mapNameToNetNdl
          "default" = some emptyNetwork := by
  intro st
  exact ⟨rfl, rfl, lookupAssoc_setAssoc st.mapNameToNetNdl "default" emptyNetwork⟩

/-- C4: `SetNodeInput(A, 0, B)` where `A` is a node of the target network and
`B` is not: the lookup of `B` raises a StateError naming `B` before the
rewiring loop runs, and the whole interpreter state — in particular every
input edge of `A` — is returned unchanged. -/
theorem setNodeInput_missing_target_state_error
    (st : MELState) (mname A B : String) (cn : ComputationNetwork)
    (hd : st.netNdlDefault = some mname)
    (hm : lookupAssoc st.mapNameToNetNdl mname = some cn)
    (hA : (lookupAssoc cn.nodes A).isSome = true)
    (hB : lookupAssoc cn.nodes B = none) :
    callFunction "SetNodeInput" [A, "0", B] st = .err st (.stateError B) := by
  have hdisp : callFunction "SetNodeInput" [A, "0", B] st = melSetNodeInput [A, "0", B] st := rfl
  obtain ⟨nA, hA2⟩ := Option.isSome_iff_exists.mp hA
  rw [hdisp]
  unfold melSetNodeInput findSymbols
  simp [List.getD, List.get?, hd, hm, hA2, hB, arityBad]


theorem setNodeInput_missing_target_witness :
    callFunction "SetNodeInput" ["A", "0", "B"]
        ⟨[("m", ⟨[("A", ⟨["old"]⟩)]⟩)], some "m"⟩ =
      .err ⟨[("m", ⟨[("A", ⟨["old"]⟩)]⟩)], some "m"⟩ (.stateError "B") :=
  setNodeInput_missing_target_state_error
    ⟨[("m", ⟨[("A", ⟨["old"]⟩)]⟩)], some "m"⟩ "m" "A" "B" ⟨[("A", ⟨["old"]⟩)]⟩
    rfl (by decide) (by decide) (by decide)

theorem ciEq_self (s : String) : ciEq s s = true := by
  simp [ciEq]

theorem findSymbolAux_tblSet (tbl : SymTab) (sym : String) (node : NDLNode) :
    findSymbolAux (tblSet tbl sym node) sym = some node := by
  induction tbl with
  | nil => simp [tblSet, findSymbolAux, ciEq_self]
  | cons p rest ih =>
    by_cases h : ciEq p.1 sym = true
    · simp [tblSet, h, findSymbolAux]
    · simp [tblSet, h, findSymbolAux, ih]

/-- C8: `AddSymbol` raises the symbol-reassignment error exactly for an
existing binding whose node is not an Undetermined placeholder; an
Undetermined placeholder is silently rebound to the new node and an absent
symbol is inserted, and in both success cases the table afterwards maps the
symbol to the new node. -/
theorem addSymbol_cases (tbl : SymTab) (sym : String) (node : NDLNode) :
    (∀ nf, findSymbolAux tbl sym = some nf → nf.ntype ≠ .ndlTypeUndetermined →
        addSymbol tbl sym node = .error (.symbolReassign sym nf.value))
  ∧ (∀ nf, findSymbolAux tbl sym = some nf → nf.ntype = .ndlTypeUndetermined →
        addSymbol tbl sym node = .ok (tblSet tbl sym node))
  ∧ (findSymbolAux tbl sym = none → addSymbol tbl sym node = .ok (tblSet tbl sym node))
  ∧ findSymbolAux (tblSet tbl sym node) sym = some node := by
  refine ⟨?_, ?_, ?_, findSymbolAux_tblSet tbl sym node⟩
  · intro nf h hne
    unfold addSymbol
    rw [h]
    simp [hne]
  · intro nf h he
    unfold addSymbol
    rw [h]
    simp [he]
  · intro h
    unfold addSymbol
    rw [h]

theorem addSymbol_cases_witness :
    findSymbolAux [("x", ⟨0, "x", "x", .ndlTypeUndetermined⟩)] "x"
        = some ⟨0, "x", "x", .ndlTypeUndetermined⟩
  ∧ addSymbol [("x", ⟨0, "x", "x", .ndlTypeUndetermined⟩)] "x" ⟨1, "x", "3", .ndlTypeConstant⟩
      = .ok (tblSet [("x", ⟨0, "x", "x", .ndlTypeUndetermined⟩)] "x"
          ⟨1, "x", "3", .ndlTypeConstant⟩) :=
  ⟨by decide,
    (addSymbol_cases [("x", ⟨0, "x", "x", .ndlTypeUndetermined⟩)] "x"
        ⟨1, "x", "3", .ndlTypeConstant⟩).2.1
      ⟨0, "x", "x", .ndlTypeUndetermined⟩ (by decide) rfl⟩

/-- C9: `GetScalar` started on a Variable node whose value names no defined
symbol: the chain lookup returns null, the source enters the error branch and
there reads `node->GetName()` from the null node — the error path dereferences
a null pointer instead of signalling the `Scalar expected` error. -/
theorem getScalar_null_deref :
    getScalar (fun _ => none) 10 ⟨0, "a", "missing", .ndlTypeVariable⟩ = .nullDeref
  ∧ ∀ name, getScalar (fun _ => none) 10 ⟨0, "a", "missing", .ndlTypeVariable⟩
      ≠ .scalarExpected name := by
  refine ⟨by decide, ?_⟩
  intro name h
  rw [show getScalar (fun _ => none) 10 ⟨0, "a", "missing", .ndlTypeVariable⟩
      = .nullDeref from by decide] at h
  exact ScalarResult.noConfusion h

/-- C10: `SetProperty` keeps a role array that holds the node at most once
duplicate-free and acts idempotently: setting makes the node occur exactly
once and a second identical call changes nothing, clearing removes it, and
clearing when absent leaves the array unchanged; counts of all other nodes
are never affected. -/
theorem setProperty_spec (n : Nat) (l : List Nat) (h : l.count n ≤ 1) :
    ((setProperty n l true).count n = 1)
  ∧ (setProperty n (setProperty n l true) true = setProperty n l true)
  ∧ ((setProperty n l false).count n = 0)
  ∧ (n ∉ l → setProperty n l false = l)
  ∧ (∀ b, l.Nodup → (setProperty n l b).Nodup)
  ∧ (∀ b m, m ≠ n → (setProperty n l b).count m = l.count m) := by
  by_cases hm : n ∈ l
  · have hc1 : l.count n = 1 := by
      have := List.count_pos_iff_mem.mpr hm
      omega
    have hset : setProperty n l true = l := by
      simp [setProperty, hm]
    refine ⟨?_, ?_, ?_, ?_, ?_, ?_⟩
    · rw [hset]; exact hc1
    · rw [hset, hset]
    · simp [setProperty, hm, List.count_erase_self, hc1]
    · intro hnot; exact absurd hm hnot
    · intro b hnd
      cases b
      · simp [setProperty, hm]
        exact hnd.erase n
      · rw [hset]; exact hnd
    · intro b m hne
      cases b
      · simp [setProperty, hm, List.count_erase_of_ne hne]
      · rw [hset]
  · have hc0 : l.count n = 0 := List.count_eq_zero.mpr hm
    have hset : setProperty n l true = l ++ [n] := by
      simp [setProperty, hm]
    refine ⟨?_, ?_, ?_, ?_, ?_, ?_⟩
    · rw [hset]
      simp [List.count_append, hc0]
    · rw [hset]
      have : n ∈ l ++ [n] := by simp
      simp [setProperty, this]
    · simp [setProperty, hm, hc0]
    · intro _
      simp [setProperty, hm]
    · intro b hnd
      cases b
      · simp [setProperty, hm]; exact hnd
      · rw [hset]
        simp [List.nodup_append, hnd, hm]
    · intro b m hne
      cases b
      · simp [setProperty, hm]
      · rw [hset]
        simp [List.count_append, List.count_cons, hne, hne.symm]

theorem setProperty_spec_witness :
    ([2, 1, 3] : List Nat).count 1 ≤ 1
  ∧ (((setProperty 1 [2, 1, 3] true).count 1 = 1)
  ∧ (setProperty 1 (setProperty 1 [2, 1, 3] true) true = setProperty 1 [2, 1, 3] true)
  ∧ ((setProperty 1 [2, 1, 3] false).count 1 = 0)
  ∧ ((1 : Nat) ∉ [2, 1, 3] → setProperty 1 [2, 1, 3] false = [2, 1, 3])
  ∧ (∀ b, ([2, 1, 3] : List Nat).Nodup → (setProperty 1 [2, 1, 3] b).Nodup)
  ∧ (∀ b m, m ≠ 1 → (setProperty 1 [2, 1, 3] b).count m = ([2, 1, 3] : List Nat).count m)) :=
  ⟨by decide, setProperty_spec 1 [2, 1, 3] (by decide)⟩

theorem evaluateScriptGo_noskip (stmts : List NDLNode) (skipThrough : Option NDLNode)
    (last : Option NDLNode) (evs : List EvalEvent) :
    evaluateScriptGo stmts false skipThrough last evs =
      (evs ++ (stmts.map evalStep).join,
        match stmts.getLast? with
        | some n => some n
        | none => last) := by
  induction stmts generalizing last evs with
  | nil => simp [evaluateScriptGo]
  | cons node rest ih =>
    simp only [evaluateScriptGo, Bool.false_eq_true, if_false, ih]
    refine Prod.ext ?_ ?_
    · simp [List.append_assoc]
    · cases hr : rest with
      | nil => simp
      | cons r rs =>
        simp only [List.getLast?_cons_cons]
        cases hg : (r :: rs).getLast? with
        | some n => simp
        | none => simp at hg

theorem evaluateScriptGo_skip (pre post : List NDLNode) (s : NDLNode)
    (last : Option NDLNode) (evs : List EvalEvent) (h : s ∉ pre) :
    evaluateScriptGo (pre ++ s :: post) true (some s) last evs =
      evaluateScriptGo post false (some s) last evs := by
  induction pre with
  | nil => simp [evaluateScriptGo]
  | cons p pre ih =>
    have hps : p ≠ s := by
      intro he
      exact h (he ▸ List.mem_cons_self p pre)
    have h2 : s ∉ pre := fun hmem => h (List.mem_cons_of_mem p hmem)
    simp only [List.cons_append, evaluateScriptGo, if_true]
    rw [if_neg (by simp [hps])]
    exact ih h2

theorem evaluateScript_none (stmts : List NDLNode) :
    evaluateScript stmts none = ((stmts.map evalStep).join, stmts.getLast?) := by
  unfold evaluateScript
  simp only [Option.isSome_none]
  rw [evaluateScriptGo_noskip]
  cases h : stmts.getLast? <;> simp

/-- C7: `NDLScript::Evaluate` walks the statement list in declaration order,
turning a macro-call statement into macro expansion followed by the
evaluator's optional-parameter processing and any other statement into the
evaluator's `Evaluate`, and returns the last statement it evaluated.  With a
skipThrough statement given, everything up to and including it is skipped,
evaluation resumes right after it, and if nothing follows it the skipThrough
node itself is returned. -/
theorem ndlScript_evaluate_spec :
    (∀ stmts : List NDLNode,
      evaluateScript stmts none = ((stmts.map evalStep).join, stmts.getLast?))
  ∧ (∀ (pre post : List NDLNode) (s : NDLNode), s ∉ pre →
      evaluateScript (pre ++ s :: post) (some s) =
        ((post.map evalStep).join,
          match post.getLast? with
          | some n => some n
          | none => some s))
  ∧ (∀ n : NDLNode, n.ntype = .ndlTypeMacroCall →
      evalStep n = [.expandMacro n, .processOptionalParams n])
  ∧ (∀ n : NDLNode, n.ntype ≠ .ndlTypeMacroCall → evalStep n = [.hostEvaluate n]) := by
  refine ⟨evaluateScript_none, ?_, ?_, ?_⟩
  · intro pre post s h
    unfold evaluateScript
    simp only [Option.isSome_some]
    rw [evaluateScriptGo_skip pre post s (some s) [] h, evaluateScriptGo_noskip]
    simp
  · intro n hn
    simp [evalStep, hn]
  · intro n hn
    simp [evalStep, hn]

theorem ndlScript_evaluate_spec_witness :
    ((⟨0, "s", "s", .ndlTypeConstant⟩ : NDLNode) ∉ ([] : List NDLNode))
  ∧ evaluateScript
      ([] ++ (⟨0, "s", "s", .ndlTypeConstant⟩ : NDLNode) ::
        [⟨1, "t", "t", .ndlTypeConstant⟩])
      (some ⟨0, "s", "s", .ndlTypeConstant⟩) =
      ((([⟨1, "t", "t", .ndlTypeConstant⟩] : List NDLNode).map evalStep).join,
        match ([⟨1, "t", "t", .ndlTypeConstant⟩] : List NDLNode).getLast? with
        | some n => some n
        | none => some ⟨0, "s", "s", .ndlTypeConstant⟩) :=
  ⟨by simp,
    ndlScript_evaluate_spec.2.1 [] [⟨1, "t", "t", .ndlTypeConstant⟩]
      ⟨0, "s", "s", .ndlTypeConstant⟩ (by simp)⟩

theorem assignSymbol_ne_arityError (tbl : SymTab) (s : String) (n : NDLNode)
    (a b : Nat) (m : String) :
    assignSymbol tbl s n ≠ .error (.arityError a b m) := by
  unfold assignSymbol
  split <;> simp

theorem addSymbol_ne_arityError (tbl : SymTab) (s : String) (n : NDLNode)
    (a b : Nat) (m : String) :
    addSymbol tbl s n ≠ .error (.arityError a b m) := by
  unfold addSymbol
  cases hf : findSymbolAux tbl s with
  | none => simp
  | some nf => by_cases ht : nf.ntype ≠ .ndlTypeUndetermined <;> simp [ht]

theorem evalMacroBindStep_ne_arityError (parentSyms : SymTab) (paramMacro : List String)
    (i : Nat) (p : NDLNode) (tbl : SymTab) (a b : Nat) (m : String) :
    evalMacroBindStep parentSyms paramMacro i p tbl ≠ .error (.arityError a b m) := by
  unfold evalMacroBindStep
  by_cases h1 : p.ntype = .ndlTypeParameter
  · simp only [h1, if_true]
    cases hf : findSymbolAux parentSyms p.name
    · simp
    · exact assignSymbol_ne_arityError tbl _ _ a b m
  · by_cases h2 : p.ntype = .ndlTypeOptionalParameter
    · by_cases h3 : i < paramMacro.length
      · simp [h1, h2, h3]
      · by_cases h4 : existsSymbol tbl (paramMacro.getD i p.name) = false
        · simp only [h1, h2, h3, h4, if_false, if_true]
          exact addSymbol_ne_arityError tbl _ _ a b m
        · simp only [h1, h2, h3, h4, if_false, if_true]
          exact assignSymbol_ne_arityError tbl _ _ a b m
    · simp only [h1, h2, if_false]
      exact assignSymbol_ne_arityError tbl _ _ a b m

theorem evalMacroBindGo_ne_arityError (parentSyms : SymTab) (paramMacro : List String)
    (ps : List NDLNode) (i : Nat) (tbl : SymTab) (a b : Nat) (m : String) :
    evalMacroBindGo parentSyms paramMacro i ps tbl ≠ .error (.arityError a b m) := by
  induction ps generalizing i tbl with
  | nil => simp [evalMacroBindGo]
  | cons p rest ih =>
    unfold evalMacroBindGo
    cases hs : evalMacroBindStep parentSyms paramMacro i p tbl with
    | ok tbl2 => exact ih (i + 1) tbl2
    | error e =>
      intro hcontr
      injection hcontr with he
      rw [he] at hs
      exact evalMacroBindStep_ne_arityError parentSyms paramMacro i p tbl a b m hs

/-- C2 counterexample: the macro call provides two actual parameters where one
formal parameter is expected (counts differ), and yet `EvaluateMacro` binds
both and evaluates the body to its result without raising any error — surplus
actual parameters do not raise the parameter-mismatch error. -/
theorem macro_surplus_args_counterexample :
    evaluateMacro []
        ⟨10, "call1", "foo", .ndlTypeMacroCall⟩
        ["x"]
        [⟨11, "p1", "1", .ndlTypeConstant⟩, ⟨12, "z", "2", .ndlTypeConstant⟩]
        ⟨[⟨13, "z", "v", .ndlTypeFunction⟩],
          [("x", ⟨14, "x", "x", .ndlTypeParameter⟩), ("z", ⟨13, "z", "v", .ndlTypeFunction⟩)]⟩
      = .ok (some ⟨13, "z", "v", .ndlTypeFunction⟩)
  ∧ ([⟨11, "p1", "1", .ndlTypeConstant⟩, ⟨12, "z", "2", .ndlTypeConstant⟩] :
      List NDLNode).length ≠ (["x"] : List String).length :=
  ⟨by decide, by decide⟩

/-- C2 (amended): the parameter-mismatch ArityError — reporting the provided
and the expected counts — is raised, before any binding or body evaluation,
exactly when fewer actual parameters than formal parameters are supplied.
Surplus actual parameters never raise it: each is bound under its own name
(which may raise a different, symbol-related error instead). -/
theorem evaluateMacro_arity (parentSyms : SymTab) (node : NDLNode)
    (paramMacro : List String) (parameters : List NDLNode) (body : NDLScriptModel)
    (hcall : node.ntype = .ndlTypeMacroCall) :
    (parameters.length < paramMacro.length →
      evaluateMacro parentSyms node paramMacro parameters body =
        .error (.arityError parameters.length paramMacro.length node.value))
  ∧ (paramMacro.length ≤ parameters.length →
      ∀ a b m, evaluateMacro parentSyms node paramMacro parameters body ≠
        .error (.arityError a b m)) := by
  constructor
  · intro hlt
    unfold evaluateMacro
    rw [if_neg (by simp [hcall]), if_pos hlt]
  · intro hge a b m
    unfold evaluateMacro
    rw [if_neg (by simp [hcall]), if_neg (by omega)]
    cases hm : evalMacroBindGo parentSyms paramMacro 0 parameters body.symbols with
    | error e =>
      intro hcontr
      injection hcontr with he
      rw [he] at hm
      exact evalMacroBindGo_ne_arityError parentSyms paramMacro parameters 0 body.symbols
        a b m hm
    | ok syms => simp

theorem evaluateMacro_arity_witness :
    evaluateMacro [] ⟨40, "c", "foo", .ndlTypeMacroCall⟩ ["x"] [] ⟨[], []⟩ =
      .error (.arityError 0 1 "foo") :=
  (evaluateMacro_arity [] ⟨40, "c", "foo", .ndlTypeMacroCall⟩ ["x"] [] ⟨[], []⟩ rfl).1
    (by decide)

/-- C3 counterexample: the body scope already binds `opt` (to its default
node) and the call supplies the optional parameter `opt=0.9`; after the
binding loop the scope's `opt` is bound to the caller's node, not to the
previously existing one — the existing binding is replaced, not preserved. -/
theorem optional_param_override_counterexample :
    evalMacroBindGo [] [] 0 [⟨20, "opt", "0.9", .ndlTypeOptionalParameter⟩]
        [("opt", ⟨21, "opt", "0.5", .ndlTypeConstant⟩)]
      = .ok [("opt", ⟨20, "opt", "0.9", .ndlTypeOptionalParameter⟩)]
  ∧ ((⟨20, "opt", "0.9", .ndlTypeOptionalParameter⟩ : NDLNode)
      ≠ ⟨21, "opt", "0.5", .ndlTypeConstant⟩)
  ∧ findSymbolAux [("opt", ⟨21, "opt", "0.5", .ndlTypeConstant⟩)] "opt"
      = some ⟨21, "opt", "0.5", .ndlTypeConstant⟩ :=
  ⟨by decide, by decide, by decide⟩

/-- C3 (amended): an optional actual parameter in an optional position is
bound unconditionally: it is added when the body scope lacks the symbol and
assigned over — replacing — the existing binding when the scope already holds
it, so the caller's optional value overrides the body's default. -/
theorem optional_param_binding (parentSyms : SymTab) (paramMacro : List String)
    (i : Nat) (p : NDLNode) (tbl : SymTab)
    (hopt : p.ntype = .ndlTypeOptionalParameter)
    (hpos : paramMacro.length ≤ i) :
    evalMacroBindGo parentSyms paramMacro i [p] tbl = .ok (tblSet tbl p.name p)
  ∧ findSymbolAux (tblSet tbl p.name p) p.name = some p := by
  refine ⟨?_, findSymbolAux_tblSet tbl p.name p⟩
  have hoob : paramMacro[i]? = none := List.getElem?_eq_none hpos
  have hnp : ¬ p.ntype = .ndlTypeParameter := by simp [hopt]
  have hlt : ¬ i < paramMacro.length := by omega
  have hstep : evalMacroBindStep parentSyms paramMacro i p tbl = .ok (tblSet tbl p.name p) := by
    cases hex : existsSymbol tbl p.name with
    | false =>
      have hnone : findSymbolAux tbl p.name = none := by
        unfold existsSymbol at hex
        cases hf : findSymbolAux tbl p.name
        · rfl
        · rw [hf] at hex
          simp at hex
      simp [evalMacroBindStep, List.getD, hoob, Option.getD_none, hnp, hopt, hlt, hex,
        addSymbol, hnone]
    | true =>
      simp [evalMacroBindStep, List.getD, hoob, Option.getD_none, hnp, hopt, hlt, hex,
        assignSymbol]
  simp [evalMacroBindGo, hstep]

theorem optional_param_binding_witness :
    evalMacroBindGo [] ["x"] 1 [⟨20, "opt", "0.9", .ndlTypeOptionalParameter⟩]
        [("opt", ⟨21, "opt", "0.5", .ndlTypeConstant⟩)]
      = .ok (tblSet [("opt", ⟨21, "opt", "0.5", .ndlTypeConstant⟩)] "opt"
          ⟨20, "opt", "0.9", .ndlTypeOptionalParameter⟩)
  ∧ findSymbolAux
      (tblSet [("opt", ⟨21, "opt", "0.5", .ndlTypeConstant⟩)] "opt"
        ⟨20, "opt", "0.9", .ndlTypeOptionalParameter⟩) "opt"
      = some ⟨20, "opt", "0.9", .ndlTypeOptionalParameter⟩ :=
  optional_param_binding [] ["x"] 1 ⟨20, "opt", "0.9", .ndlTypeOptionalParameter⟩
    [("opt", ⟨21, "opt", "0.5", .ndlTypeConstant⟩)] rfl (by decide)

/-- C6: a successfully bound macro call returns the node registered in the
body's symbol table under the macro's own name when that symbol exists after
the body has been evaluated, and otherwise the last node evaluated in the
body (the last statement of the body script). -/
theorem evaluateMacro_result (parentSyms : SymTab) (node : NDLNode)
    (paramMacro : List String) (parameters : List NDLNode) (body : NDLScriptModel)
    (syms : SymTab)
    (hcall : node.ntype = .ndlTypeMacroCall)
    (hlen : ¬ parameters.length < paramMacro.length)
    (hbind : evalMacroBindGo parentSyms paramMacro 0 parameters body.symbols = .ok syms) :
    evaluateMacro parentSyms node paramMacro parameters body =
      .ok (match findSymbolAux syms node.value with
           | some nodeMacroName => some nodeMacroName
           | none => body.statements.getLast?) := by
  unfold evaluateMacro
  rw [if_neg (by simp [hcall]), if_neg hlen, hbind]
  cases hf : findSymbolAux syms node.value <;>
    simp [evaluateScript_none, hf]

theorem evaluateMacro_result_witness :
    evaluateMacro [] ⟨50, "call", "foo", .ndlTypeMacroCall⟩ [] []
        ⟨[⟨51, "z", "1", .ndlTypeConstant⟩], [("foo", ⟨52, "foo", "2", .ndlTypeConstant⟩)]⟩ =
      .ok (match findSymbolAux [("foo", ⟨52, "foo", "2", .ndlTypeConstant⟩)] "foo" with
           | some nodeMacroName => some nodeMacroName
           | none => ([⟨51, "z", "1", .ndlTypeConstant⟩] : List NDLNode).getLast?) :=
  evaluateMacro_result [] ⟨50, "call", "foo", .ndlTypeMacroCall⟩ [] []
    ⟨[⟨51, "z", "1", .ndlTypeConstant⟩], [("foo", ⟨52, "foo", "2", .ndlTypeConstant⟩)]⟩
    [("foo", ⟨52, "foo", "2", .ndlTypeConstant⟩)] rfl (by decide) rfl

end CNTK
